import Mathlib

/-!
Shallow embedding of the multiple-instance chat system's write-side and
read-side core: chats, messages, read receipts (message_reads) and unread
counters (unread_counts), together with the command handlers of the
sender/receiver services and the subscription filter predicates.

Rows are modelled as Lean structures, the relational store as lists of rows,
each TypeORM repository save as an update-or-append on the key used by the
corresponding findOne, exceptions as Except, and Redis publishes as an
accumulated list of events.  Execution is serialized (one command at a time);
the read-then-write decomposition used for the concurrency analysis of the
unread counters is given separately.
-/

deriving instance DecidableEq for Except

namespace ChatSystem

/-- Row of the chats table (chat.entity.ts); createdAt/updatedAt timestamps
and the optional description/chatType columns are not relevant to any claim
and are omitted. -/
structure Chat where
  id : String
  name : String
  participantIds : List String
  isActive : Bool
deriving Repr, DecidableEq

/-- Row of the messages table (message.entity.ts); timestamps omitted. -/
structure Message where
  id : String
  chatId : String
  senderId : String
  content : String
  isEdited : Bool
deriving Repr, DecidableEq

/-- Row of the message_reads table (message-read.entity.ts); readAt omitted. -/
structure MessageRead where
  messageId : String
  userId : String
deriving Repr, DecidableEq

/-- Row of the unread_counts table (unread-count.entity.ts).  The column is
an SQL INTEGER, so it is modelled as Int (non-negativity is a property to be
proved, not assumed). -/
structure UnreadCount where
  chatId : String
  userId : String
  unreadCount : Int
deriving Repr, DecidableEq

/-- The payloads published over the Redis pub/sub bus. -/
inductive Event where
  | messageAdded (m : Message)
  | chatMessageNotification (chatId : String) (m : Message) (senderId : String)
  | messageUpdateForChatList (chatId : String) (m : Message) (senderId : String)
  | unreadCountUpdated (chatId userId : String) (unreadCount : Int)
  | messageReadUpdated (messageId userId : String)
  | chatAdded (c : Chat)
  | chatUpdated (c : Chat)
  | messageUpdated (m : Message)
  | messageDeleted (id chatId : String)
deriving Repr, DecidableEq

/-- NestJS exceptions thrown by the services, plus the store-unavailable
failure used for the failure-injection model. -/
inductive Err where
  | notFound (what : String)
  | forbidden (why : String)
  | storeUnavailable
deriving Repr, DecidableEq

/-- The persistent store: one list of rows per table. -/
structure Store where
  chats : List Chat
  messages : List Message
  reads : List MessageRead
  unreadCounts : List UnreadCount
deriving Repr, DecidableEq

def Store.empty : Store := ⟨[], [], [], []⟩

/-- Key predicate used by unreadCountRepository.findOne with
where \x7b chatId, userId \x7d. -/
def counterKeyMatches (chatId userId : String) (r : UnreadCount) : Bool :=
  r.chatId == chatId && r.userId == userId

/-- unreadCountRepository.findOne on the (chatId, userId) key. -/
def findCounterRow (rows : List UnreadCount) (chatId userId : String) :
    Option UnreadCount :=
  rows.find? (counterKeyMatches chatId userId)

/-- repository.save of an unread_counts row: the row for the key is updated
in place if present (the key is UNIQUE(chat_id, user_id) in init-db.sql),
otherwise the row is inserted. -/
def upsertCounterRows (rows : List UnreadCount) (row : UnreadCount) :
    List UnreadCount :=
  if rows.any (counterKeyMatches row.chatId row.userId) then
    rows.map (fun r => if counterKeyMatches row.chatId row.userId r then row else r)
  else
    rows ++ [row]

def saveUnreadCount (s : Store) (row : UnreadCount) : Store :=
  { s with unreadCounts := upsertCounterRows s.unreadCounts row }

def lookupUnreadCount (s : Store) (chatId userId : String) : Option UnreadCount :=
  findCounterRow s.unreadCounts chatId userId

/-- UnreadCountService.incrementUnreadCount: findOne; missing row is created
with unreadCount 1, otherwise unreadCount += 1; save; then publish
unreadCountUpdated carrying the saved row's value. -/
def UnreadCountService.incrementUnreadCount (s : Store) (chatId userId : String) :
    Store × Event × UnreadCount :=
  let row : UnreadCount :=
    match lookupUnreadCount s chatId userId with
    | none => { chatId := chatId, userId := userId, unreadCount := 1 }
    | some r => { r with unreadCount := r.unreadCount + 1 }
  let s' := saveUnreadCount s row
  (s', Event.unreadCountUpdated chatId userId row.unreadCount, row)

/-- UnreadCountService.resetUnreadCount: findOne; missing row is created with
unreadCount 0, otherwise unreadCount = 0; save; then publish
unreadCountUpdated carrying the saved row's value. -/
def UnreadCountService.resetUnreadCount (s : Store) (chatId userId : String) :
    Store × Event × UnreadCount :=
  let row : UnreadCount :=
    match lookupUnreadCount s chatId userId with
    | none => { chatId := chatId, userId := userId, unreadCount := 0 }
    | some r => { r with unreadCount := 0 }
  let s' := saveUnreadCount s row
  (s', Event.unreadCountUpdated chatId userId row.unreadCount, row)

/-- UnreadCountService.getUnreadCount: unreadCount?.unreadCount or 0.
(For an integer v, the JavaScript expression v or-else 0 equals v.) -/
def UnreadCountService.getUnreadCount (s : Store) (chatId userId : String) : Int :=
  ((lookupUnreadCount s chatId userId).map (fun r => r.unreadCount)).getD 0

/-- ChatService.findOne: first chat with the given id and isActive true;
throws NotFoundException when absent (callers observe the Option). -/
def ChatService.findOne (s : Store) (id : String) : Option Chat :=
  s.chats.find? (fun c => c.id == id && c.isActive)

/-- ChatService.isParticipant: findOne (propagating its NotFoundException),
then participantIds.includes(userId). -/
def ChatService.isParticipant (s : Store) (chatId userId : String) :
    Except Err Bool :=
  match ChatService.findOne s chatId with
  | none => Except.error (Err.notFound "chat")
  | some c => Except.ok (c.participantIds.contains userId)

/-- repository.save of a chats row: updates the row with the same id. -/
def saveChatRows (rows : List Chat) (c : Chat) : List Chat :=
  if rows.any (fun x => x.id == c.id) then
    rows.map (fun x => if x.id == c.id then c else x)
  else
    rows ++ [c]

def saveChat (s : Store) (c : Chat) : Store :=
  { s with chats := saveChatRows s.chats c }

/-- repository.save of a messages row: updates the row with the same id. -/
def saveMessageRows (rows : List Message) (m : Message) : List Message :=
  if rows.any (fun x => x.id == m.id) then
    rows.map (fun x => if x.id == m.id then m else x)
  else
    rows ++ [m]

def saveMessage (s : Store) (m : Message) : Store :=
  { s with messages := saveMessageRows s.messages m }

/-- MessageService.findOne on the messages table (throws NotFoundException
when absent; callers observe the Option). -/
def MessageService.findOne (s : Store) (id : String) : Option Message :=
  s.messages.find? (fun m => m.id == id)

/-- Read receipts stored for a message (messageReadRepository.find on
messageId). -/
def readsFor (s : Store) (messageId : String) : List MessageRead :=
  s.reads.filter (fun r => r.messageId == messageId)

/-- The user ids holding a read receipt for the message. -/
def readersOf (s : Store) (messageId : String) : List String :=
  (readsFor s messageId).map (fun r => r.userId)

/-- Number of stored receipts for one (message, user) pair. -/
def countReceipts (s : Store) (messageId userId : String) : Nat :=
  (s.reads.filter (fun r => r.messageId == messageId && r.userId == userId)).length

/-- Result shape of the messageReadStatus query
(message-read-status.dto.ts, readByUsers omitted). -/
structure MessageReadStatus where
  messageId : String
  totalParticipants : Nat
  readByCount : Nat
  isFullyRead : Bool
deriving Repr, DecidableEq

/-- MessageService.getMessageReadStatus: findOne message, findOne chat,
otherParticipants = participantIds without the sender, readByCount = number
of stored receipts for the message, isFullyRead = readByCount >=
otherParticipants.length. -/
def MessageService.getMessageReadStatus (s : Store) (messageId : String) :
    Except Err MessageReadStatus :=
  match MessageService.findOne s messageId with
  | none => Except.error (Err.notFound "message")
  | some message =>
    match ChatService.findOne s message.chatId with
    | none => Except.error (Err.notFound "chat")
    | some chat =>
      let otherParticipants :=
        chat.participantIds.filter (fun id => id != message.senderId)
      let totalParticipants := otherParticipants.length
      let readByCount := (readsFor s messageId).length
      Except.ok
        { messageId := messageId
          totalParticipants := totalParticipants
          readByCount := readByCount
          isFullyRead := decide (totalParticipants ≤ readByCount) }

/-- The increment loop of MessageService.create: one
incrementUnreadCount call per non-sender participant, in list order,
accumulating the published events. -/
def incrementAll (s : Store) (chatId : String) : List String → Store × List Event
  | [] => (s, [])
  | pid :: rest =>
    let r := UnreadCountService.incrementUnreadCount s chatId pid
    let next := incrementAll r.1 chatId rest
    (next.1, r.2.1 :: next.2)

/-- MessageService.create: isParticipant check (ForbiddenException when
false), save the new message, publish messageAdded +
chatMessageNotification + messageUpdateForChatList, then increment the
unread counter of every non-sender participant.  The fresh uuid chosen for
the row is passed in as newId. -/
def MessageService.create (s : Store) (chatId senderId content newId : String) :
    Except Err (Store × List Event × Message) :=
  match ChatService.isParticipant s chatId senderId with
  | Except.error e => Except.error e
  | Except.ok isP =>
    if !isP then
      Except.error (Err.forbidden "User is not a participant in this chat")
    else
      let savedMessage : Message :=
        { id := newId, chatId := chatId, senderId := senderId
          content := content, isEdited := false }
      let s1 := { s with messages := s.messages ++ [savedMessage] }
      let evs1 := [Event.messageAdded savedMessage,
                   Event.chatMessageNotification chatId savedMessage senderId,
                   Event.messageUpdateForChatList chatId savedMessage senderId]
      match ChatService.findOne s1 chatId with
      | none => Except.error (Err.notFound "chat")
      | some chat =>
        let otherParticipants :=
          chat.participantIds.filter (fun id => id != senderId)
        let r := incrementAll s1 chatId otherParticipants
        Except.ok (r.1, evs1 ++ r.2, savedMessage)

/-- MessageService.markMessageAsRead: findOne message, isParticipant check,
return the existing receipt if one is stored for (messageId, userId);
otherwise save a new receipt, findOne the chat again, reset the unread
counter when it is currently > 0, and publish messageReadUpdated. -/
def MessageService.markMessageAsRead (s : Store) (messageId userId : String) :
    Except Err (Store × List Event × MessageRead) :=
  match MessageService.findOne s messageId with
  | none => Except.error (Err.notFound "message")
  | some message =>
    match ChatService.isParticipant s message.chatId userId with
    | Except.error e => Except.error e
    | Except.ok isP =>
      if !isP then
        Except.error (Err.forbidden "User is not a participant in this chat")
      else
        match s.reads.find? (fun r => r.messageId == messageId && r.userId == userId) with
        | some existingRead => Except.ok (s, [], existingRead)
        | none =>
          let savedRead : MessageRead := { messageId := messageId, userId := userId }
          let s1 := { s with reads := s.reads ++ [savedRead] }
          match ChatService.findOne s1 message.chatId with
          | none => Except.error (Err.notFound "chat")
          | some _chat =>
            let cnt := UnreadCountService.getUnreadCount s1 message.chatId userId
            let r :=
              if 0 < cnt then
                let rr := UnreadCountService.resetUnreadCount s1 message.chatId userId
                (rr.1, [rr.2.1])
              else (s1, ([] : List Event))
            Except.ok (r.1, r.2 ++ [Event.messageReadUpdated messageId userId], savedRead)

/-- MessageService.update: findOne, sender-only guard, set content and
isEdited, save, publish messageUpdated. -/
def MessageService.update (s : Store) (id content userId : String) :
    Except Err (Store × Event × Message) :=
  match MessageService.findOne s id with
  | none => Except.error (Err.notFound "message")
  | some message =>
    if message.senderId != userId then
      Except.error (Err.forbidden "Only the sender can edit this message")
    else
      let m' := { message with content := content, isEdited := true }
      Except.ok (saveMessage s m', Event.messageUpdated m', m')

/-- MessageService.remove: findOne, sender-only guard, delete the row
(message_reads rows for the message go with it via ON DELETE CASCADE in
init-db.sql), publish messageDeleted. -/
def MessageService.remove (s : Store) (id userId : String) :
    Except Err (Store × Event × Message) :=
  match MessageService.findOne s id with
  | none => Except.error (Err.notFound "message")
  | some message =>
    if message.senderId != userId then
      Except.error (Err.forbidden "Only the sender can delete this message")
    else
      let s' := { s with
        messages := s.messages.filter (fun m => m.id != id),
        reads := s.reads.filter (fun r => r.messageId != id) }
      Except.ok (s', Event.messageDeleted message.id message.chatId, message)

/-- Validation applied by the GraphQL layer to CreateChatInput
(create-chat.input.ts): IsNotEmpty name, ArrayMinSize(1) participantIds.
(The IsString/IsArray shape checks are implicit in the types; uuid formats
are not modelled, ids are abstract strings.) -/
def createChatInputValid (name : String) (participantIds : List String) : Bool :=
  name != "" && decide (1 ≤ participantIds.length)

/-- Validation applied to CreateMessageInput (create-message.input.ts):
IsNotEmpty content. -/
def createMessageInputValid (content : String) : Bool :=
  content != ""

/-- ChatService.create (sender side): save a new chat row built from the
input (isActive defaults to true), publish chatAdded.  The fresh uuid is
passed in as id. -/
def ChatService.create (s : Store) (id name : String)
    (participantIds : List String) : Store × Event × Chat :=
  let chat : Chat :=
    { id := id, name := name, participantIds := participantIds, isActive := true }
  ({ s with chats := s.chats ++ [chat] }, Event.chatAdded chat, chat)

/-- ChatService.addParticipant: findOne, push userId unless already
included, save. -/
def ChatService.addParticipant (s : Store) (chatId userId : String) :
    Except Err (Store × Chat) :=
  match ChatService.findOne s chatId with
  | none => Except.error (Err.notFound "chat")
  | some chat =>
    if !(chat.participantIds.contains userId) then
      let chat' := { chat with participantIds := chat.participantIds ++ [userId] }
      Except.ok (saveChat s chat', chat')
    else
      Except.ok (s, chat)

/-- ChatService.addParticipants: findOne, append the not-yet-included
userIds, save + publish chatUpdated when anything was added. -/
def ChatService.addParticipants (s : Store) (chatId : String)
    (userIds : List String) : Except Err (Store × List Event × Chat) :=
  match ChatService.findOne s chatId with
  | none => Except.error (Err.notFound "chat")
  | some chat =>
    let newParticipants :=
      userIds.filter (fun u => !(chat.participantIds.contains u))
    if 0 < newParticipants.length then
      let chat' := { chat with participantIds := chat.participantIds ++ newParticipants }
      Except.ok (saveChat s chat', [Event.chatUpdated chat'], chat')
    else
      Except.ok (s, [], chat)

/-- ChatService.removeParticipant: findOne, filter userId out of
participantIds, save. -/
def ChatService.removeParticipant (s : Store) (chatId userId : String) :
    Except Err (Store × Chat) :=
  match ChatService.findOne s chatId with
  | none => Except.error (Err.notFound "chat")
  | some chat =>
    let chat' := { chat with
      participantIds := chat.participantIds.filter (fun id => id != userId) }
    Except.ok (saveChat s chat', chat')

/-- ChatService.remove: findOne, set isActive false, save. -/
def ChatService.remove (s : Store) (chatId : String) : Except Err (Store × Chat) :=
  match ChatService.findOne s chatId with
  | none => Except.error (Err.notFound "chat")
  | some chat =>
    let chat' := { chat with isActive := false }
    Except.ok (saveChat s chat', chat')

/-- Payload published on the chatMessageNotification topic
(MessageService.create). -/
structure ChatMessageNotificationPayload where
  chatId : String
  message : Message
  senderId : String
deriving Repr, DecidableEq

/-- Payload published on the messageUpdateForChatList topic
(MessageService.create). -/
structure MessageUpdateForChatListPayload where
  chatId : String
  message : Message
  senderId : String
deriving Repr, DecidableEq

/-- Subscription filter of MessageResolver.chatMessageNotification:
payload.chatMessageNotification.senderId !== variables.userId. -/
def chatMessageNotificationFilter (payload : ChatMessageNotificationPayload)
    (userId : String) : Bool :=
  payload.senderId != userId

/-- Subscription filter of MessageResolver.messageUpdateForChatList:
payload.messageUpdateForChatList.senderId !== variables.userId. -/
def messageUpdateForChatListFilter (payload : MessageUpdateForChatListPayload)
    (userId : String) : Bool :=
  payload.senderId != userId

/-- The mutating command surface exposed by the GraphQL resolvers.  Fresh
uuids chosen by the store are carried in the command. -/
inductive Cmd where
  | createChat (id name : String) (participantIds : List String)
  | addParticipant (chatId userId : String)
  | addParticipants (chatId : String) (userIds : List String)
  | removeParticipant (chatId userId : String)
  | removeChat (chatId : String)
  | sendMessage (newId chatId senderId content : String)
  | editMessage (id content userId : String)
  | deleteMessage (id userId : String)
  | markRead (messageId userId : String)
deriving Repr, DecidableEq

/-- One serialized command against the store; a command that is rejected by
input validation or throws leaves the store unchanged. -/
def step (s : Store) : Cmd → Store
  | Cmd.createChat id name ps =>
    if createChatInputValid name ps then (ChatService.create s id name ps).1 else s
  | Cmd.addParticipant c u =>
    match ChatService.addParticipant s c u with
    | Except.ok r => r.1
    | Except.error _ => s
  | Cmd.addParticipants c us =>
    match ChatService.addParticipants s c us with
    | Except.ok r => r.1
    | Except.error _ => s
  | Cmd.removeParticipant c u =>
    match ChatService.removeParticipant s c u with
    | Except.ok r => r.1
    | Except.error _ => s
  | Cmd.removeChat c =>
    match ChatService.remove s c with
    | Except.ok r => r.1
    | Except.error _ => s
  | Cmd.sendMessage newId c sender content =>
    if createMessageInputValid content then
      match MessageService.create s c sender content newId with
      | Except.ok r => r.1
      | Except.error _ => s
    else s
  | Cmd.editMessage id content u =>
    match MessageService.update s id content u with
    | Except.ok r => r.1
    | Except.error _ => s
  | Cmd.deleteMessage id u =>
    match MessageService.remove s id u with
    | Except.ok r => r.1
    | Except.error _ => s
  | Cmd.markRead m u =>
    match MessageService.markMessageAsRead s m u with
    | Except.ok r => r.1
    | Except.error _ => s

/-- Run a command sequence from the empty store. -/
def runCmds (cmds : List Cmd) : Store :=
  cmds.foldl step Store.empty

/-- A store state is reachable when some serialized command sequence
produces it from the empty store. -/
def Reachable (s : Store) : Prop :=
  ∃ cmds, runCmds cmds = s

/-- The two legal transitions of the unread-counter state machine. -/
inductive CounterOp where
  | increment
  | resetToZero
deriving Repr, DecidableEq

/-- One serialized counter operation on a fixed (chat, user) key. -/
def applyCounterOp (chatId userId : String) (s : Store) : CounterOp → Store
  | CounterOp.increment => (UnreadCountService.incrementUnreadCount s chatId userId).1
  | CounterOp.resetToZero => (UnreadCountService.resetUnreadCount s chatId userId).1

/-- A serialized sequence of counter operations on one key. -/
def applyCounterOps (chatId userId : String) (s : Store) (ops : List CounterOp) :
    Store :=
  ops.foldl (applyCounterOp chatId userId) s

/-- Serialized counter operations together with the unreadCountUpdated
events they publish, in publication order. -/
def counterOpsTrace (chatId userId : String) (s : Store) :
    List CounterOp → Store × List Event
  | [] => (s, [])
  | op :: ops =>
    let r :=
      match op with
      | CounterOp.increment => UnreadCountService.incrementUnreadCount s chatId userId
      | CounterOp.resetToZero => UnreadCountService.resetUnreadCount s chatId userId
    let rest := counterOpsTrace chatId userId r.1 ops
    (rest.1, r.2.1 :: rest.2)

/-- A client's unread badge absorbing one forwarded event: an
unreadCountUpdated payload overwrites the badge with the carried value
(useUnreadCounts hook); other events leave it alone. -/
def applyEventToBadge (badge : Int) : Event → Int
  | Event.unreadCountUpdated _ _ v => v
  | _ => badge

/-- The read phase of UnreadCountService.incrementUnreadCount /
resetUnreadCount: the repository findOne on the key. -/
def incrementRead (s : Store) (chatId userId : String) : Option UnreadCount :=
  lookupUnreadCount s chatId userId

/-- The write phase of UnreadCountService.incrementUnreadCount: build the
row from the previously fetched value and save it. -/
def incrementWrite (s : Store) (chatId userId : String)
    (found : Option UnreadCount) : Store × Event × UnreadCount :=
  let row : UnreadCount :=
    match found with
    | none => { chatId := chatId, userId := userId, unreadCount := 1 }
    | some r => { r with unreadCount := r.unreadCount + 1 }
  let s' := saveUnreadCount s row
  (s', Event.unreadCountUpdated chatId userId row.unreadCount, row)

/-- Two increments of the same key run concurrently with the interleaving
read1, read2, write1, write2: both read phases observe the original store. -/
def twoIncrementsInterleaved (s : Store) (chatId userId : String) : Store :=
  let found1 := incrementRead s chatId userId
  let found2 := incrementRead s chatId userId
  let s1 := (incrementWrite s chatId userId found1).1
  (incrementWrite s1 chatId userId found2).1

/-- Whether the store write numbered idx fails under the given failure
schedule (at most one failing write, identified by its index in execution
order). -/
def saveFails (failAt : Option Nat) (idx : Nat) : Bool :=
  match failAt with
  | none => false
  | some k => k == idx

/-- incrementUnreadCount under failure injection: the repository save is
write number idx; when it fails the command throws Store-Unavailable before
the row is stored and before the event is published. -/
def incrementUnreadCountF (failAt : Option Nat) (idx : Nat) (s : Store)
    (chatId userId : String) : Except Err (Store × Event) :=
  let row : UnreadCount :=
    match lookupUnreadCount s chatId userId with
    | none => { chatId := chatId, userId := userId, unreadCount := 1 }
    | some r => { r with unreadCount := r.unreadCount + 1 }
  if saveFails failAt idx then
    Except.error Err.storeUnavailable
  else
    Except.ok (saveUnreadCount s row, Event.unreadCountUpdated chatId userId row.unreadCount)

/-- The increment loop of MessageService.create under failure injection:
an exception thrown by one increment aborts the loop, leaving the effects of
the earlier iterations in place. -/
def incrementAllF (failAt : Option Nat) (chatId : String) :
    List String → Store → List Event → Nat → (Except Err Unit × Store × List Event)
  | [], s, evs, _ => (Except.ok (), s, evs)
  | pid :: rest, s, evs, idx =>
    match incrementUnreadCountF failAt idx s chatId pid with
    | Except.error e => (Except.error e, s, evs)
    | Except.ok r => incrementAllF failAt chatId rest r.1 (evs ++ [r.2]) (idx + 1)

/-- MessageService.create under failure injection.  Store writes are
numbered in execution order: the message save is write 0, the counter saves
are writes 1, 2, ....  The returned store and event list reflect exactly the
effects performed before the failure (the publishes happen between the
message save and the counter loop, as in the source). -/
def MessageService.createF (failAt : Option Nat) (s : Store)
    (chatId senderId content newId : String) :
    Except Err Message × Store × List Event :=
  match ChatService.isParticipant s chatId senderId with
  | Except.error e => (Except.error e, s, [])
  | Except.ok isP =>
    if !isP then
      (Except.error (Err.forbidden "User is not a participant in this chat"), s, [])
    else if saveFails failAt 0 then
      (Except.error Err.storeUnavailable, s, [])
    else
      let savedMessage : Message :=
        { id := newId, chatId := chatId, senderId := senderId
          content := content, isEdited := false }
      let s1 := { s with messages := s.messages ++ [savedMessage] }
      let evs1 := [Event.messageAdded savedMessage,
                   Event.chatMessageNotification chatId savedMessage senderId,
                   Event.messageUpdateForChatList chatId savedMessage senderId]
      match ChatService.findOne s1 chatId with
      | none => (Except.error (Err.notFound "chat"), s1, evs1)
      | some chat =>
        let otherParticipants :=
          chat.participantIds.filter (fun id => id != senderId)
        let r := incrementAllF failAt chatId otherParticipants s1 evs1 1
        (r.1.map (fun _ => savedMessage), r.2.1, r.2.2)

/-- Chat c with participants u1, u2; u1 sent message m; then u1 (the
sender) marked its own message as read — markMessageAsRead only checks
participantship, so this call succeeds. -/
def senderReadStore : Store :=
  runCmds [Cmd.createChat "c" "general" ["u1", "u2"],
           Cmd.sendMessage "m" "c" "u1" "hi",
           Cmd.markRead "m" "u1"]

/-- The same trace, used for the receipt invariant: the store ends up
holding a ReadReceipt whose userId is the sender of the message. -/
def senderReceiptStore : Store :=
  runCmds [Cmd.createChat "c" "general" ["u1", "u2"],
           Cmd.sendMessage "m" "c" "u1" "hi",
           Cmd.markRead "m" "u1"]

/-- Chat c with participants u1, u2; u1 sent m; u2 marked it read. -/
def fullyReadStore : Store :=
  runCmds [Cmd.createChat "c" "general" ["u1", "u2"],
           Cmd.sendMessage "m" "c" "u1" "hi",
           Cmd.markRead "m" "u2"]

/-- Chat created with a duplicated participant id (createChat only
validates ArrayMinSize(1), nothing deduplicates the input list), then u1
sends a message. -/
def dupParticipantStore : Store :=
  runCmds [Cmd.createChat "c" "general" ["u1", "u2", "u2"],
           Cmd.sendMessage "m" "c" "u1" "hi"]

/-- Chat c with participants u1, u2, u3 and no messages. -/
def threeUserStore : Store :=
  runCmds [Cmd.createChat "c" "general" ["u1", "u2", "u3"]]

/-- Chat c with participants u1, u2 and no messages. -/
def twoUserStore : Store :=
  runCmds [Cmd.createChat "c" "general" ["u1", "u2"]]

/-- A single-member chat whose only participant was then removed through
the exposed removeParticipant mutation. -/
def emptiedChatStore : Store :=
  runCmds [Cmd.createChat "c" "general" ["u1"],
           Cmd.removeParticipant "c" "u1"]

/-- Chat c with participants u1, u2; u1 sent message m (unread by u2). -/
def oneUnreadStore : Store :=
  runCmds [Cmd.createChat "c" "general" ["u1", "u2"],
           Cmd.sendMessage "m" "c" "u1" "hi"]

/-- oneUnreadStore after u2 marked m as read: the receipt row exists and
u2's counter was reset. -/
def oneUnreadStoreAfterRead : Store :=
  runCmds [Cmd.createChat "c" "general" ["u1", "u2"],
           Cmd.sendMessage "m" "c" "u1" "hi",
           Cmd.markRead "m" "u2"]

/-- Every stored unread counter is non-negative. -/
def countersNonneg (s : Store) : Prop :=
  ∀ r ∈ s.unreadCounts, 0 ≤ r.unreadCount

/-- The (message, user) key pairs of the stored read receipts. -/
def receiptPairs (s : Store) : List (String × String) :=
  s.reads.map (fun r => (r.messageId, r.userId))

theorem counterKeyMatches_self (row : UnreadCount) :
    counterKeyMatches row.chatId row.userId row = true := by
  simp [counterKeyMatches]

theorem counterKeyMatches_eq_keys {c u : String} {r : UnreadCount}
    (h : counterKeyMatches c u r = true) : r.chatId = c ∧ r.userId = u := by
  simpa [counterKeyMatches] using h

theorem find?_map_upsert {c u : String} (row : UnreadCount) (rows : List UnreadCount)
    (h : ¬(row.chatId = c ∧ row.userId = u)) :
    (rows.map (fun r => if counterKeyMatches row.chatId row.userId r then row else r)).find?
        (counterKeyMatches c u) = rows.find? (counterKeyMatches c u) := by
  have hrow : ¬ counterKeyMatches c u row = true := fun hx =>
    h ⟨(counterKeyMatches_eq_keys hx).1, (counterKeyMatches_eq_keys hx).2⟩
  induction rows with
  | nil => rfl
  | cons r rs ih =>
    by_cases hk : counterKeyMatches row.chatId row.userId r = true
    · have h1 := (counterKeyMatches_eq_keys hk).1
      have h2 := (counterKeyMatches_eq_keys hk).2
      have hr : ¬ counterKeyMatches c u r = true := by
        intro hx
        exact h ⟨h1 ▸ (counterKeyMatches_eq_keys hx).1, h2 ▸ (counterKeyMatches_eq_keys hx).2⟩
      rw [List.map_cons, if_pos hk, List.find?_cons_of_neg _ hrow,
        List.find?_cons_of_neg _ hr, ih]
    · by_cases hr : counterKeyMatches c u r = true
      · rw [List.map_cons, if_neg hk, List.find?_cons_of_pos _ hr,
          List.find?_cons_of_pos _ hr]
      · rw [List.map_cons, if_neg hk, List.find?_cons_of_neg _ hr,
          List.find?_cons_of_neg _ hr, ih]

theorem find?_append_upsert {c u : String} (row : UnreadCount)
    (rows : List UnreadCount) (hrow : ¬ counterKeyMatches c u row = true) :
    (rows ++ [row]).find? (counterKeyMatches c u)
      = rows.find? (counterKeyMatches c u) := by
  rw [List.find?_append]
  have h1 : ([row].find? (counterKeyMatches c u)) = none := by
    rw [List.find?_cons_of_neg _ hrow]; rfl
  rw [h1, Option.or_none]

theorem findCounterRow_upsert_other (rows : List UnreadCount) (row : UnreadCount)
    {c u : String} (h : ¬(row.chatId = c ∧ row.userId = u)) :
    findCounterRow (upsertCounterRows rows row) c u = findCounterRow rows c u := by
  have hrow : ¬ counterKeyMatches c u row = true := fun hx =>
    h ⟨(counterKeyMatches_eq_keys hx).1, (counterKeyMatches_eq_keys hx).2⟩
  unfold upsertCounterRows findCounterRow
  split
  · exact find?_map_upsert row rows h
  · exact find?_append_upsert row rows hrow

theorem find?_map_upsert_self (row : UnreadCount) (rows : List UnreadCount)
    (hany : rows.any (counterKeyMatches row.chatId row.userId) = true) :
    (rows.map (fun r => if counterKeyMatches row.chatId row.userId r then row else r)).find?
        (counterKeyMatches row.chatId row.userId) = some row := by
  induction rows with
  | nil => simp at hany
  | cons r rs ih =>
    by_cases hk : counterKeyMatches row.chatId row.userId r = true
    · rw [List.map_cons, if_pos hk, List.find?_cons_of_pos _ (counterKeyMatches_self row)]
    · have hrs : rs.any (counterKeyMatches row.chatId row.userId) = true := by
        simpa [List.any_cons, hk] using hany
      rw [List.map_cons, if_neg hk, List.find?_cons_of_neg _ hk, ih hrs]

theorem find?_append_self (row : UnreadCount) (rows : List UnreadCount)
    (hany : rows.any (counterKeyMatches row.chatId row.userId) = false) :
    (rows ++ [row]).find? (counterKeyMatches row.chatId row.userId) = some row := by
  rw [List.find?_append]
  have h1 : rows.find? (counterKeyMatches row.chatId row.userId) = none := by
    rw [List.find?_eq_none]
    intro a ha hpa
    have : rows.any (counterKeyMatches row.chatId row.userId) = true :=
      List.any_eq_true.mpr ⟨a, ha, hpa⟩
    rw [hany] at this
    cases this
  rw [h1, Option.none_or, List.find?_cons_of_pos _ (counterKeyMatches_self row)]

theorem findCounterRow_upsert_self (rows : List UnreadCount) (row : UnreadCount) :
    findCounterRow (upsertCounterRows rows row) row.chatId row.userId = some row := by
  unfold upsertCounterRows findCounterRow
  split
  · exact find?_map_upsert_self row rows (by assumption)
  · next hany =>
    exact find?_append_self row rows (by simpa using hany)

theorem findCounterRow_some_keys {rows : List UnreadCount} {c u : String}
    {r : UnreadCount} (h : findCounterRow rows c u = some r) :
    r.chatId = c ∧ r.userId = u :=
  counterKeyMatches_eq_keys (List.find?_some h)

theorem lookup_save_key (s : Store) (c u : String) (row : UnreadCount)
    (hc : row.chatId = c) (hu : row.userId = u) :
    lookupUnreadCount (saveUnreadCount s row) c u = some row := by
  subst hc; subst hu
  exact findCounterRow_upsert_self s.unreadCounts row

theorem lookup_save_other (s : Store) {c u : String} (row : UnreadCount)
    (h : ¬(row.chatId = c ∧ row.userId = u)) :
    lookupUnreadCount (saveUnreadCount s row) c u = lookupUnreadCount s c u :=
  findCounterRow_upsert_other s.unreadCounts row h

theorem getUnreadCount_increment_self (s : Store) (c u : String) :
    UnreadCountService.getUnreadCount
        (UnreadCountService.incrementUnreadCount s c u).1 c u
      = UnreadCountService.getUnreadCount s c u + 1 := by
  unfold UnreadCountService.incrementUnreadCount UnreadCountService.getUnreadCount
  cases hl : lookupUnreadCount s c u with
  | none =>
    have key : lookupUnreadCount
        (saveUnreadCount s { chatId := c, userId := u, unreadCount := 1 }) c u
        = some { chatId := c, userId := u, unreadCount := 1 } :=
      lookup_save_key s c u _ rfl rfl
    simp [hl, key]
  | some r =>
    obtain ⟨h1, h2⟩ := findCounterRow_some_keys hl
    have key : lookupUnreadCount
        (saveUnreadCount s { r with unreadCount := r.unreadCount + 1 }) c u
        = some { r with unreadCount := r.unreadCount + 1 } :=
      lookup_save_key s c u _ h1 h2
    simp [hl, key]

theorem getUnreadCount_increment_other (s : Store) (c u c' u' : String)
    (h : ¬(c = c' ∧ u = u')) :
    UnreadCountService.getUnreadCount
        (UnreadCountService.incrementUnreadCount s c u).1 c' u'
      = UnreadCountService.getUnreadCount s c' u' := by
  unfold UnreadCountService.incrementUnreadCount UnreadCountService.getUnreadCount
  cases hl : lookupUnreadCount s c u with
  | none =>
    have key : lookupUnreadCount
        (saveUnreadCount s { chatId := c, userId := u, unreadCount := 1 }) c' u'
        = lookupUnreadCount s c' u' :=
      lookup_save_other s _ (by simpa using h)
    simp [hl, key]
  | some r =>
    obtain ⟨h1, h2⟩ := findCounterRow_some_keys hl
    have key : lookupUnreadCount
        (saveUnreadCount s { r with unreadCount := r.unreadCount + 1 }) c' u'
        = lookupUnreadCount s c' u' :=
      lookup_save_other s _ (by simpa [h1, h2] using h)
    simp [hl, key]

theorem getUnreadCount_reset_self (s : Store) (c u : String) :
    UnreadCountService.getUnreadCount
        (UnreadCountService.resetUnreadCount s c u).1 c u = 0 := by
  unfold UnreadCountService.resetUnreadCount UnreadCountService.getUnreadCount
  cases hl : lookupUnreadCount s c u with
  | none =>
    have key : lookupUnreadCount
        (saveUnreadCount s { chatId := c, userId := u, unreadCount := 0 }) c u
        = some { chatId := c, userId := u, unreadCount := 0 } :=
      lookup_save_key s c u _ rfl rfl
    simp [hl, key]
  | some r =>
    obtain ⟨h1, h2⟩ := findCounterRow_some_keys hl
    have key : lookupUnreadCount
        (saveUnreadCount s { r with unreadCount := 0 }) c u
        = some { r with unreadCount := 0 } :=
      lookup_save_key s c u _ h1 h2
    simp [hl, key]

theorem getUnreadCount_reset_other (s : Store) (c u c' u' : String)
    (h : ¬(c = c' ∧ u = u')) :
    UnreadCountService.getUnreadCount
        (UnreadCountService.resetUnreadCount s c u).1 c' u'
      = UnreadCountService.getUnreadCount s c' u' := by
  unfold UnreadCountService.resetUnreadCount UnreadCountService.getUnreadCount
  cases hl : lookupUnreadCount s c u with
  | none =>
    have key : lookupUnreadCount
        (saveUnreadCount s { chatId := c, userId := u, unreadCount := 0 }) c' u'
        = lookupUnreadCount s c' u' :=
      lookup_save_other s _ (by simpa using h)
    simp [hl, key]
  | some r =>
    obtain ⟨h1, h2⟩ := findCounterRow_some_keys hl
    have key : lookupUnreadCount
        (saveUnreadCount s { r with unreadCount := 0 }) c' u'
        = lookupUnreadCount s c' u' :=
      lookup_save_other s _ (by simpa [h1, h2] using h)
    simp [hl, key]

theorem incrementUnreadCount_reads (s : Store) (c u : String) :
    (UnreadCountService.incrementUnreadCount s c u).1.reads = s.reads := rfl

theorem incrementUnreadCount_messages (s : Store) (c u : String) :
    (UnreadCountService.incrementUnreadCount s c u).1.messages = s.messages := rfl

theorem incrementUnreadCount_chats (s : Store) (c u : String) :
    (UnreadCountService.incrementUnreadCount s c u).1.chats = s.chats := rfl

theorem resetUnreadCount_reads (s : Store) (c u : String) :
    (UnreadCountService.resetUnreadCount s c u).1.reads = s.reads := rfl

theorem resetUnreadCount_messages (s : Store) (c u : String) :
    (UnreadCountService.resetUnreadCount s c u).1.messages = s.messages := rfl

theorem resetUnreadCount_chats (s : Store) (c u : String) :
    (UnreadCountService.resetUnreadCount s c u).1.chats = s.chats := rfl

theorem incrementAll_reads (c : String) (ps : List String) (s : Store) :
    (incrementAll s c ps).1.reads = s.reads := by
  induction ps generalizing s with
  | nil => rfl
  | cons p ps ih => simpa [incrementAll] using ih (UnreadCountService.incrementUnreadCount s c p).1

theorem incrementAll_messages (c : String) (ps : List String) (s : Store) :
    (incrementAll s c ps).1.messages = s.messages := by
  induction ps generalizing s with
  | nil => rfl
  | cons p ps ih => simpa [incrementAll] using ih (UnreadCountService.incrementUnreadCount s c p).1

theorem incrementAll_chats (c : String) (ps : List String) (s : Store) :
    (incrementAll s c ps).1.chats = s.chats := by
  induction ps generalizing s with
  | nil => rfl
  | cons p ps ih => simpa [incrementAll] using ih (UnreadCountService.incrementUnreadCount s c p).1

theorem getUnreadCount_incrementAll (c : String) (ps : List String) (s : Store)
    (u : String) :
    UnreadCountService.getUnreadCount (incrementAll s c ps).1 c u
      = UnreadCountService.getUnreadCount s c u + (ps.count u : Int) := by
  induction ps generalizing s with
  | nil => simp [incrementAll]
  | cons p ps ih =>
    by_cases hp : p = u
    · subst hp
      have := ih (UnreadCountService.incrementUnreadCount s c p).1
      simp only [incrementAll] at this ⊢
      rw [this, getUnreadCount_increment_self, List.count_cons]
      simp
      ring
    · have := ih (UnreadCountService.incrementUnreadCount s c p).1
      simp only [incrementAll] at this ⊢
      rw [this, getUnreadCount_increment_other s c p c u (fun hh => hp hh.2),
        List.count_cons]
      simp [hp]

theorem count_filter_ne_self (l : List String) (x : String) :
    (l.filter (fun id => id != x)).count x = 0 := by
  rw [List.count_eq_zero]
  intro hmem
  have := List.of_mem_filter hmem
  simp at this

theorem count_filter_ne_other (l : List String) (x u : String) (h : u ≠ x) :
    (l.filter (fun id => id != x)).count u = l.count u := by
  induction l with
  | nil => rfl
  | cons a l ih =>
    by_cases ha : a = x
    · subst ha
      have hne : (a == u) = false := beq_eq_false_iff_ne.mpr (fun hh => h hh.symm)
      simp [List.count_cons, hne, ih]
    · simp [List.filter_cons, ha, List.count_cons, ih]

theorem applyCounterOps_append (c u : String) (s : Store) (l₁ l₂ : List CounterOp) :
    applyCounterOps c u s (l₁ ++ l₂)
      = applyCounterOps c u (applyCounterOps c u s l₁) l₂ := by
  simp [applyCounterOps, List.foldl_append]

theorem getUnreadCount_applyCounterOps_no_reset (c u : String) (ops : List CounterOp)
    (s : Store) (h : CounterOp.resetToZero ∉ ops) :
    UnreadCountService.getUnreadCount (applyCounterOps c u s ops) c u
      = UnreadCountService.getUnreadCount s c u + (ops.count CounterOp.increment : Int) := by
  induction ops generalizing s with
  | nil => simp [applyCounterOps]
  | cons op ops ih =>
    cases op with
    | increment =>
      have htail : CounterOp.resetToZero ∉ ops := fun hx => h (List.mem_cons_of_mem _ hx)
      have : applyCounterOps c u s (CounterOp.increment :: ops)
          = applyCounterOps c u (applyCounterOp c u s CounterOp.increment) ops := rfl
      rw [this, ih _ htail]
      simp [applyCounterOp, getUnreadCount_increment_self, List.count_cons]
      ring
    | resetToZero => exact absurd (List.mem_cons_self CounterOp.resetToZero ops) h

theorem getUnreadCount_after_reset_segment (c u : String) (s : Store)
    (pre suf : List CounterOp) (h : CounterOp.resetToZero ∉ suf) :
    UnreadCountService.getUnreadCount
        (applyCounterOps c u s (pre ++ CounterOp.resetToZero :: suf)) c u
      = (suf.count CounterOp.increment : Int) := by
  rw [applyCounterOps_append]
  have : applyCounterOps c u (applyCounterOps c u s pre) (CounterOp.resetToZero :: suf)
      = applyCounterOps c u
          (applyCounterOp c u (applyCounterOps c u s pre) CounterOp.resetToZero) suf := rfl
  rw [this, getUnreadCount_applyCounterOps_no_reset c u suf _ h]
  simp [applyCounterOp, getUnreadCount_reset_self]

theorem countersNonneg_save (s : Store) (row : UnreadCount)
    (hs : countersNonneg s) (hrow : 0 ≤ row.unreadCount) :
    countersNonneg (saveUnreadCount s row) := by
  intro r hr
  have hr' : r ∈ upsertCounterRows s.unreadCounts row := hr
  unfold upsertCounterRows at hr'
  split at hr'
  · obtain ⟨a, ha, heq⟩ := List.mem_map.1 hr'
    by_cases hk : counterKeyMatches row.chatId row.userId a = true
    · rw [if_pos hk] at heq; rw [← heq]; exact hrow
    · rw [if_neg hk] at heq; rw [← heq]; exact hs a ha
  · rcases List.mem_append.1 hr' with hm | hm
    · exact hs r hm
    · have : r = row := by simpa using hm
      rw [this]; exact hrow

theorem countersNonneg_increment (s : Store) (c u : String) (hs : countersNonneg s) :
    countersNonneg (UnreadCountService.incrementUnreadCount s c u).1 := by
  unfold UnreadCountService.incrementUnreadCount
  cases hl : lookupUnreadCount s c u with
  | none =>
    simp only [hl]
    exact countersNonneg_save s _ hs (by norm_num)
  | some r =>
    have hmem : r ∈ s.unreadCounts := List.mem_of_find?_eq_some hl
    simp only [hl]
    exact countersNonneg_save s _ hs
      (by have := hs r hmem; simpa using by omega)

theorem countersNonneg_reset (s : Store) (c u : String) (hs : countersNonneg s) :
    countersNonneg (UnreadCountService.resetUnreadCount s c u).1 := by
  unfold UnreadCountService.resetUnreadCount
  cases hl : lookupUnreadCount s c u with
  | none =>
    simp only [hl]
    exact countersNonneg_save s _ hs (by norm_num)
  | some r =>
    simp only [hl]
    exact countersNonneg_save s _ hs (by norm_num)

theorem countersNonneg_incrementAll (c : String) (ps : List String) (s : Store)
    (hs : countersNonneg s) : countersNonneg (incrementAll s c ps).1 := by
  induction ps generalizing s with
  | nil => exact hs
  | cons p ps ih =>
    have h1 := countersNonneg_increment s c p hs
    simpa [incrementAll] using ih _ h1

theorem countersNonneg_of_eq_counts {s t : Store}
    (h : t.unreadCounts = s.unreadCounts) (hs : countersNonneg s) :
    countersNonneg t := by
  intro r hr
  rw [h] at hr
  exact hs r hr

theorem countersNonneg_step (s : Store) (cmd : Cmd) (hs : countersNonneg s) :
    countersNonneg (step s cmd) := by
  cases cmd with
  | createChat id name ps =>
    simp only [step]
    split
    · exact countersNonneg_of_eq_counts rfl hs
    · exact hs
  | addParticipant cid uid =>
    simp only [step]
    split
    · next r heq =>
      unfold ChatService.addParticipant at heq
      split at heq
      · cases heq
      · split at heq
        · cases heq
          exact countersNonneg_of_eq_counts rfl hs
        · cases heq
          exact hs
    · exact hs
  | addParticipants cid uids =>
    simp only [step]
    split
    · next r heq =>
      unfold ChatService.addParticipants at heq
      split at heq
      · cases heq
      · dsimp only at heq
        split at heq
        · cases heq
          exact countersNonneg_of_eq_counts rfl hs
        · cases heq
          exact hs
    · exact hs
  | removeParticipant cid uid =>
    simp only [step]
    split
    · next r heq =>
      unfold ChatService.removeParticipant at heq
      split at heq
      · cases heq
      · cases heq
        exact countersNonneg_of_eq_counts rfl hs
    · exact hs
  | removeChat cid =>
    simp only [step]
    split
    · next r heq =>
      unfold ChatService.remove at heq
      split at heq
      · cases heq
      · cases heq
        exact countersNonneg_of_eq_counts rfl hs
    · exact hs
  | sendMessage newId cid sender content =>
    simp only [step]
    split
    · split
      · next r heq =>
        unfold MessageService.create at heq
        split at heq
        · cases heq
        · split at heq
          · cases heq
          · dsimp only at heq
            split at heq
            · cases heq
            · cases heq
              exact countersNonneg_incrementAll cid _ _
                (countersNonneg_of_eq_counts rfl hs)
      · exact hs
    · exact hs
  | editMessage id content uid =>
    simp only [step]
    split
    · next r heq =>
      unfold MessageService.update at heq
      split at heq
      · cases heq
      · split at heq
        · cases heq
        · cases heq
          exact countersNonneg_of_eq_counts rfl hs
    · exact hs
  | deleteMessage id uid =>
    simp only [step]
    split
    · next r heq =>
      unfold MessageService.remove at heq
      split at heq
      · cases heq
      · split at heq
        · cases heq
        · cases heq
          exact countersNonneg_of_eq_counts rfl hs
    · exact hs
  | markRead mid uid =>
    simp only [step]
    split
    · next r heq =>
      unfold MessageService.markMessageAsRead at heq
      split at heq
      · cases heq
      · split at heq
        · cases heq
        · split at heq
          · cases heq
          · split at heq
            · cases heq
              exact hs
            · dsimp only at heq
              split at heq
              · cases heq
              · split at heq
                · cases heq
                  exact countersNonneg_reset _ _ _
                    (countersNonneg_of_eq_counts rfl hs)
                · cases heq
                  exact countersNonneg_of_eq_counts rfl hs
    · exact hs

theorem countersNonneg_foldl (l : List Cmd) (s : Store) (hs : countersNonneg s) :
    countersNonneg (l.foldl step s) := by
  induction l generalizing s with
  | nil => exact hs
  | cons cmd l ih => exact ih _ (countersNonneg_step s cmd hs)

theorem countersNonneg_reachable (s : Store) (h : Reachable s) : countersNonneg s := by
  obtain ⟨cmds, rfl⟩ := h
  exact countersNonneg_foldl cmds Store.empty (fun r hr => by cases hr)

theorem receiptPairs_nodup_of_eq_reads {s t : Store} (h : t.reads = s.reads)
    (hs : (receiptPairs s).Nodup) : (receiptPairs t).Nodup := by
  unfold receiptPairs at hs ⊢
  rw [h]
  exact hs

theorem receiptPairs_step (s : Store) (cmd : Cmd)
    (hs : (receiptPairs s).Nodup) : (receiptPairs (step s cmd)).Nodup := by
  cases cmd with
  | createChat id name ps =>
    simp only [step]
    split
    · exact receiptPairs_nodup_of_eq_reads rfl hs
    · exact hs
  | addParticipant cid uid =>
    simp only [step]
    split
    · next r heq =>
      unfold ChatService.addParticipant at heq
      split at heq
      · cases heq
      · split at heq
        · cases heq
          exact receiptPairs_nodup_of_eq_reads rfl hs
        · cases heq
          exact hs
    · exact hs
  | addParticipants cid uids =>
    simp only [step]
    split
    · next r heq =>
      unfold ChatService.addParticipants at heq
      split at heq
      · cases heq
      · dsimp only at heq
        split at heq
        · cases heq
          exact receiptPairs_nodup_of_eq_reads rfl hs
        · cases heq
          exact hs
    · exact hs
  | removeParticipant cid uid =>
    simp only [step]
    split
    · next r heq =>
      unfold ChatService.removeParticipant at heq
      split at heq
      · cases heq
      · cases heq
        exact receiptPairs_nodup_of_eq_reads rfl hs
    · exact hs
  | removeChat cid =>
    simp only [step]
    split
    · next r heq =>
      unfold ChatService.remove at heq
      split at heq
      · cases heq
      · cases heq
        exact receiptPairs_nodup_of_eq_reads rfl hs
    · exact hs
  | sendMessage newId cid sender content =>
    simp only [step]
    split
    · split
      · next r heq =>
        unfold MessageService.create at heq
        split at heq
        · cases heq
        · split at heq
          · cases heq
          · dsimp only at heq
            split at heq
            · cases heq
            · cases heq
              exact receiptPairs_nodup_of_eq_reads (incrementAll_reads cid _ _) hs
      · exact hs
    · exact hs
  | editMessage id content uid =>
    simp only [step]
    split
    · next r heq =>
      unfold MessageService.update at heq
      split at heq
      · cases heq
      · split at heq
        · cases heq
        · cases heq
          exact receiptPairs_nodup_of_eq_reads rfl hs
    · exact hs
  | deleteMessage id uid =>
    simp only [step]
    split
    · next r heq =>
      unfold MessageService.remove at heq
      split at heq
      · cases heq
      · split at heq
        · cases heq
        · cases heq
          exact List.Nodup.sublist
            (List.Sublist.map _ (List.filter_sublist _)) hs
    · exact hs
  | markRead mid uid =>
    simp only [step]
    split
    · next r heq =>
      unfold MessageService.markMessageAsRead at heq
      split at heq
      · cases heq
      · split at heq
        · cases heq
        · split at heq
          · cases heq
          · split at heq
            · cases heq
              exact hs
            · next hfind =>
              have hnotin : (mid, uid) ∉ receiptPairs s := by
                intro hmem
                obtain ⟨rr, hrr, heq2⟩ := List.mem_map.1 hmem
                have hne := List.find?_eq_none.1 hfind rr hrr
                apply hne
                have h1 : rr.messageId = mid := congrArg Prod.fst heq2
                have h2 : rr.userId = uid := congrArg Prod.snd heq2
                simp [h1, h2]
              have happ : ∀ t : Store,
                  t.reads = s.reads ++ [{ messageId := mid, userId := uid }] →
                  (receiptPairs t).Nodup := by
                intro t ht
                unfold receiptPairs
                rw [ht, List.map_append]
                refine List.Nodup.append hs (List.nodup_singleton _) ?_
                intro a ha hb
                simp only [List.map_cons, List.map_nil, List.mem_singleton] at hb
                rw [hb] at ha
                exact hnotin ha
              dsimp only at heq
              split at heq
              · cases heq
              · split at heq
                · cases heq
                  exact happ _ (resetUnreadCount_reads _ _ _)
                · cases heq
                  exact happ _ rfl
    · exact hs

theorem receiptPairs_foldl (l : List Cmd) (s : Store)
    (hs : (receiptPairs s).Nodup) : (receiptPairs (l.foldl step s)).Nodup := by
  induction l generalizing s with
  | nil => exact hs
  | cons cmd l ih => exact ih _ (receiptPairs_step s cmd hs)

theorem filter_receipts_eq_nil (s : Store) (mid uid : String)
    (h0 : countReceipts s mid uid = 0) :
    s.reads.filter (fun rr => rr.messageId == mid && rr.userId == uid) = [] :=
  List.length_eq_zero.1 h0

theorem find?_receipts_none (s : Store) (mid uid : String)
    (h0 : countReceipts s mid uid = 0) :
    s.reads.find? (fun rr => rr.messageId == mid && rr.userId == uid) = none := by
  rw [List.find?_eq_none]
  intro a ha hpa
  have hnil := filter_receipts_eq_nil s mid uid h0
  have hmem : a ∈ s.reads.filter (fun rr => rr.messageId == mid && rr.userId == uid) :=
    List.mem_filter.2 ⟨ha, hpa⟩
  rw [hnil] at hmem
  cases hmem

theorem markMessageAsRead_ok_new (s : Store) (mid uid : String)
    (s₁ : Store) (evs : List Event) (r : MessageRead)
    (hfind : s.reads.find? (fun rr => rr.messageId == mid && rr.userId == uid) = none)
    (h : MessageService.markMessageAsRead s mid uid = Except.ok (s₁, evs, r)) :
    r = { messageId := mid, userId := uid } ∧
    s₁.reads = s.reads ++ [{ messageId := mid, userId := uid }] ∧
    s₁.messages = s.messages ∧
    s₁.chats = s.chats ∧
    ∃ m, MessageService.findOne s mid = some m ∧
      ∃ c, ChatService.findOne s m.chatId = some c ∧
        c.participantIds.contains uid = true := by
  unfold MessageService.markMessageAsRead at h
  split at h
  · cases h
  · next m hm =>
    split at h
    · cases h
    · next isP hb =>
      split at h
      · cases h
      · next hisP =>
        have hisPtrue : isP = true := by
          cases isP
          · simp at hisP
          · rfl
        subst hisPtrue
        obtain ⟨c, hc, hcont⟩ :
            ∃ c, ChatService.findOne s m.chatId = some c ∧
              c.participantIds.contains uid = true := by
          unfold ChatService.isParticipant at hb
          split at hb
          · cases hb
          · next c hc =>
            injection hb with hb'
            exact ⟨c, hc, hb'⟩
        split at h
        · next ex hex =>
          rw [hfind] at hex
          cases hex
        · dsimp only at h
          split at h
          · cases h
          · split at h
            · cases h
              exact ⟨rfl, resetUnreadCount_reads _ _ _, rfl, rfl, m, hm, c, hc, hcont⟩
            · cases h
              exact ⟨rfl, rfl, rfl, rfl, m, hm, c, hc, hcont⟩

theorem incrementUnreadCount_event_value (s : Store) (c u : String) :
    (UnreadCountService.incrementUnreadCount s c u).2.1
      = Event.unreadCountUpdated c u
          (UnreadCountService.getUnreadCount
            (UnreadCountService.incrementUnreadCount s c u).1 c u) := by
  unfold UnreadCountService.incrementUnreadCount
  cases hl : lookupUnreadCount s c u with
  | none =>
    have key := lookup_save_key s c u
      { chatId := c, userId := u, unreadCount := 1 } rfl rfl
    simp [UnreadCountService.getUnreadCount, key]
  | some r =>
    obtain ⟨h1, h2⟩ := findCounterRow_some_keys hl
    have key := lookup_save_key s c u
      { r with unreadCount := r.unreadCount + 1 } h1 h2
    simp [UnreadCountService.getUnreadCount, key]

theorem resetUnreadCount_event_value (s : Store) (c u : String) :
    (UnreadCountService.resetUnreadCount s c u).2.1
      = Event.unreadCountUpdated c u
          (UnreadCountService.getUnreadCount
            (UnreadCountService.resetUnreadCount s c u).1 c u) := by
  unfold UnreadCountService.resetUnreadCount
  cases hl : lookupUnreadCount s c u with
  | none =>
    have key := lookup_save_key s c u
      { chatId := c, userId := u, unreadCount := 0 } rfl rfl
    simp [UnreadCountService.getUnreadCount, key]
  | some r =>
    obtain ⟨h1, h2⟩ := findCounterRow_some_keys hl
    have key := lookup_save_key s c u { r with unreadCount := 0 } h1 h2
    simp [UnreadCountService.getUnreadCount, key]

theorem counterOpsTrace_append (c u : String) (s : Store) (l₁ l₂ : List CounterOp) :
    counterOpsTrace c u s (l₁ ++ l₂)
      = ((counterOpsTrace c u (counterOpsTrace c u s l₁).1 l₂).1,
         (counterOpsTrace c u s l₁).2
           ++ (counterOpsTrace c u (counterOpsTrace c u s l₁).1 l₂).2) := by
  induction l₁ generalizing s with
  | nil => simp [counterOpsTrace]
  | cons op l₁ ih => cases op <;> simp [counterOpsTrace, ih]

theorem trace_getLast_event (c u : String) (s : Store) (ops : List CounterOp)
    (op : CounterOp) :
    (counterOpsTrace c u s (ops ++ [op])).2.getLast?
      = some (Event.unreadCountUpdated c u
          (UnreadCountService.getUnreadCount
            (counterOpsTrace c u s (ops ++ [op])).1 c u)) := by
  rw [counterOpsTrace_append]
  cases op with
  | increment =>
    simp [counterOpsTrace, List.getLast?_concat, incrementUnreadCount_event_value]
  | resetToZero =>
    simp [counterOpsTrace, List.getLast?_concat, resetUnreadCount_event_value]

theorem create_ok_inv (s : Store) (chatId senderId content newId : String)
    (s' : Store) (evs : List Event) (m : Message) (c : Chat)
    (hc : ChatService.findOne s chatId = some c)
    (h : MessageService.create s chatId senderId content newId
          = Except.ok (s', evs, m)) :
    s' = (incrementAll
      { s with messages := s.messages ++
          [{ id := newId, chatId := chatId, senderId := senderId,
             content := content, isEdited := false }] } chatId
      (c.participantIds.filter (fun id => id != senderId))).1 := by
  unfold MessageService.create at h
  split at h
  · cases h
  · next isP hb =>
    split at h
    · cases h
    · dsimp only at h
      split at h
      · cases h
      · next chat hchat =>
        cases h
        have h2 : ChatService.findOne s chatId = some chat := hchat
        rw [hc] at h2
        injection h2 with h3
        subst h3
        rfl

theorem create_getUnreadCount (s : Store) (chatId senderId content newId : String)
    (s' : Store) (evs : List Event) (m : Message) (c : Chat)
    (hc : ChatService.findOne s chatId = some c)
    (h : MessageService.create s chatId senderId content newId
          = Except.ok (s', evs, m)) (u : String) :
    UnreadCountService.getUnreadCount s' chatId u
      = UnreadCountService.getUnreadCount s chatId u
        + ((c.participantIds.filter (fun id => id != senderId)).count u : Int) := by
  rw [create_ok_inv s chatId senderId content newId s' evs m c hc h,
    getUnreadCount_incrementAll]
  rfl

theorem length_le_length_of_nodup_subset {l₁ l₂ : List String}
    (h1 : l₁.Nodup) (hsub : ∀ x ∈ l₁, x ∈ l₂) : l₁.length ≤ l₂.length :=
  calc l₁.length = l₁.toFinset.card := (List.toFinset_card_of_nodup h1).symm
    _ ≤ l₂.toFinset.card := Finset.card_le_card
        (fun x hx => List.mem_toFinset.2 (hsub x (List.mem_toFinset.1 hx)))
    _ ≤ l₂.length := List.toFinset_card_le l₂

theorem mem_of_nodup_subset_length_le {R O : List String}
    (hR : R.Nodup) (hO : O.Nodup) (hsub : ∀ x ∈ R, x ∈ O)
    (hlen : O.length ≤ R.length) : ∀ x ∈ O, x ∈ R := by
  have hsubF : R.toFinset ⊆ O.toFinset := fun x hx =>
    List.mem_toFinset.2 (hsub _ (List.mem_toFinset.1 hx))
  have hcard : O.toFinset.card ≤ R.toFinset.card := by
    rw [List.toFinset_card_of_nodup hR, List.toFinset_card_of_nodup hO]
    exact hlen
  have heq := Finset.eq_of_subset_of_card_le hsubF hcard
  intro x hx
  have hxF : x ∈ O.toFinset := List.mem_toFinset.2 hx
  rw [← heq] at hxF
  exact List.mem_toFinset.1 hxF

theorem addParticipant_mem (s : Store) (cid uid : String) (s' : Store) (c' : Chat)
    (c : Chat) (hc : ChatService.findOne s cid = some c)
    (h : ChatService.addParticipant s cid uid = Except.ok (s', c')) :
    ∀ x ∈ c.participantIds, x ∈ c'.participantIds := by
  unfold ChatService.addParticipant at h
  split at h
  · cases h
  · next chat hchat =>
    rw [hc] at hchat
    injection hchat with hcc
    subst hcc
    split at h
    · cases h
      intro x hx
      exact List.mem_append.2 (Or.inl hx)
    · cases h
      intro x hx
      exact hx

theorem addParticipants_mem (s : Store) (cid : String) (uids : List String)
    (s' : Store) (evs : List Event) (c' : Chat) (c : Chat)
    (hc : ChatService.findOne s cid = some c)
    (h : ChatService.addParticipants s cid uids = Except.ok (s', evs, c')) :
    ∀ x ∈ c.participantIds, x ∈ c'.participantIds := by
  unfold ChatService.addParticipants at h
  split at h
  · cases h
  · next chat hchat =>
    rw [hc] at hchat
    injection hchat with hcc
    subst hcc
    dsimp only at h
    split at h
    · cases h
      intro x hx
      exact List.mem_append.2 (Or.inl hx)
    · cases h
      intro x hx
      exact hx

theorem removeParticipant_result (s : Store) (cid uid : String) (s' : Store)
    (c' : Chat) (c : Chat) (hc : ChatService.findOne s cid = some c)
    (h : ChatService.removeParticipant s cid uid = Except.ok (s', c')) :
    c'.participantIds = c.participantIds.filter (fun id => id != uid) := by
  unfold ChatService.removeParticipant at h
  split at h
  · cases h
  · next chat hchat =>
    rw [hc] at hchat
    injection hchat with hcc
    subst hcc
    cases h
    rfl

theorem createChat_result (s : Store) (id name : String) (ps : List String) :
    (ChatService.create s id name ps).2.2.participantIds = ps := rfl

theorem createChatInputValid_length (name : String) (ps : List String)
    (h : createChatInputValid name ps = true) : 1 ≤ ps.length := by
  unfold createChatInputValid at h
  exact of_decide_eq_true (Bool.and_elim_right h)

theorem step_createChat_invalid (s : Store) (id name : String) (ps : List String)
    (h : createChatInputValid name ps = false) :
    step s (Cmd.createChat id name ps) = s := by
  simp [step, h]

/-- C1 (amended): the count-based predicate isFullyRead agrees with
"every non-sender participant holds a receipt" provided every stored
receipt for the message belongs to a distinct non-sender participant and
the participant list is duplicate-free; without those provisos the
implementation's counting can disagree (see the counterexample). -/
theorem isFullyRead_iff_receipts_wellformed (s : Store) (mid : String)
    (m : Message) (c : Chat) (st : MessageReadStatus)
    (hm : MessageService.findOne s mid = some m)
    (hc : ChatService.findOne s m.chatId = some c)
    (hst : MessageService.getMessageReadStatus s mid = Except.ok st)
    (hR : (readersOf s mid).Nodup)
    (hO : (c.participantIds.filter (fun id => id != m.senderId)).Nodup)
    (hsub : ∀ u ∈ readersOf s mid, u ∈ c.participantIds ∧ u ≠ m.senderId) :
    st.isFullyRead = true ↔
      ∀ u ∈ c.participantIds, u ≠ m.senderId → u ∈ readersOf s mid := by
  unfold MessageService.getMessageReadStatus at hst
  rw [hm] at hst
  dsimp only at hst
  rw [hc] at hst
  dsimp only at hst
  cases hst
  show decide ((c.participantIds.filter (fun id => id != m.senderId)).length
      ≤ (readsFor s mid).length) = true ↔ _
  have hlenR : (readsFor s mid).length = (readersOf s mid).length :=
    (List.length_map _ _).symm
  rw [hlenR, decide_eq_true_iff]
  constructor
  · intro hfull u hu hne
    have hsubRO : ∀ x ∈ readersOf s mid,
        x ∈ c.participantIds.filter (fun id => id != m.senderId) := by
      intro x hx
      exact List.mem_filter.2 ⟨(hsub x hx).1, by simpa using (hsub x hx).2⟩
    have hmem := mem_of_nodup_subset_length_le hR hO hsubRO hfull
    exact hmem u (List.mem_filter.2 ⟨hu, by simpa using hne⟩)
  · intro hall
    have hOR : ∀ x ∈ c.participantIds.filter (fun id => id != m.senderId),
        x ∈ readersOf s mid := by
      intro x hx
      have hx' := List.mem_filter.1 hx
      exact hall x hx'.1 (by simpa using hx'.2)
    exact length_le_length_of_nodup_subset hO hOR

/-- C1 (counterexample): in the reachable state where the sender u1 marked
its own message as read, the query reports isFullyRead = true although the
non-sender participant u2 holds no receipt, refuting the claimed iff. -/
theorem isFullyRead_counterexample :
    Reachable senderReadStore ∧
    MessageService.getMessageReadStatus senderReadStore "m"
      = Except.ok { messageId := "m", totalParticipants := 1, readByCount := 1,
                    isFullyRead := true } ∧
    MessageService.findOne senderReadStore "m"
      = some { id := "m", chatId := "c", senderId := "u1", content := "hi",
               isEdited := false } ∧
    ChatService.findOne senderReadStore "c"
      = some { id := "c", name := "general", participantIds := ["u1", "u2"],
               isActive := true } ∧
    "u2" ∈ (["u1", "u2"] : List String) ∧ "u2" ≠ "u1" ∧
    "u2" ∉ readersOf senderReadStore "m" :=
  ⟨⟨_, rfl⟩, by decide, by decide, by decide, by decide, by decide, by decide⟩

/-- C1 (witness): in the state where u2 (the only non-sender participant)
read message m, the hypotheses of the amended theorem hold and the iff
applies. -/
theorem isFullyRead_iff_receipts_wellformed_witness :
    (MessageService.findOne fullyReadStore "m"
        = some { id := "m", chatId := "c", senderId := "u1", content := "hi",
                 isEdited := false } ∧
     MessageService.getMessageReadStatus fullyReadStore "m"
        = Except.ok { messageId := "m", totalParticipants := 1, readByCount := 1,
                      isFullyRead := true } ∧
     (readersOf fullyReadStore "m").Nodup) ∧
    ({ messageId := "m", totalParticipants := 1, readByCount := 1,
       isFullyRead := true : MessageReadStatus }.isFullyRead = true ↔
      ∀ u ∈ ({ id := "c", name := "general", participantIds := ["u1", "u2"],
               isActive := true : Chat }).participantIds,
        u ≠ ({ id := "m", chatId := "c", senderId := "u1", content := "hi",
               isEdited := false : Message }).senderId →
        u ∈ readersOf fullyReadStore "m") :=
  ⟨⟨by decide, by decide, by decide⟩,
   isFullyRead_iff_receipts_wellformed fullyReadStore "m"
     { id := "m", chatId := "c", senderId := "u1", content := "hi", isEdited := false }
     { id := "c", name := "general", participantIds := ["u1", "u2"], isActive := true }
     { messageId := "m", totalParticipants := 1, readByCount := 1, isFullyRead := true }
     (by decide) (by decide) (by decide) (by decide) (by decide) (by decide)⟩

/-- C2: markMessageAsRead is idempotent: when no receipt exists for
(message, user) and a first call succeeds, the second call returns the
stored receipt unchanged, performs no store write and publishes nothing,
and exactly one receipt row exists. -/
theorem markMessageAsRead_idempotent (s : Store) (mid uid : String)
    (s₁ : Store) (evs : List Event) (r : MessageRead)
    (h0 : countReceipts s mid uid = 0)
    (h : MessageService.markMessageAsRead s mid uid = Except.ok (s₁, evs, r)) :
    MessageService.markMessageAsRead s₁ mid uid = Except.ok (s₁, [], r) ∧
    countReceipts s₁ mid uid = 1 := by
  have hfind := find?_receipts_none s mid uid h0
  obtain ⟨hr, hreads, hmsgs, hchats, m, hm, c, hc, hcont⟩ :=
    markMessageAsRead_ok_new s mid uid s₁ evs r hfind h
  subst hr
  constructor
  · have hm1 : MessageService.findOne s₁ mid = some m := by
      unfold MessageService.findOne at hm ⊢
      rw [hmsgs]
      exact hm
    have hc1 : ChatService.findOne s₁ m.chatId = some c := by
      unfold ChatService.findOne at hc ⊢
      rw [hchats]
      exact hc
    have hfind1 : s₁.reads.find?
        (fun rr => rr.messageId == mid && rr.userId == uid)
        = some { messageId := mid, userId := uid } := by
      rw [hreads, List.find?_append, hfind]
      simp [List.find?]
    unfold MessageService.markMessageAsRead ChatService.isParticipant
    rw [hm1]
    dsimp only
    rw [hc1]
    dsimp only
    simp [hcont, hfind1]
    simpa using hcont
  · unfold countReceipts
    rw [hreads, List.filter_append, filter_receipts_eq_nil s mid uid h0]
    simp

/-- C2 (witness): u2 marks message m of chat c as read; remarking returns
the stored receipt with no further effects. -/
theorem markMessageAsRead_idempotent_witness :
    (countReceipts oneUnreadStore "m" "u2" = 0 ∧
     MessageService.markMessageAsRead oneUnreadStore "m" "u2"
       = Except.ok (oneUnreadStoreAfterRead,
           [Event.unreadCountUpdated "c" "u2" 0,
            Event.messageReadUpdated "m" "u2"],
           { messageId := "m", userId := "u2" })) ∧
    (MessageService.markMessageAsRead oneUnreadStoreAfterRead "m" "u2"
       = Except.ok (oneUnreadStoreAfterRead, [],
           { messageId := "m", userId := "u2" }) ∧
     countReceipts oneUnreadStoreAfterRead "m" "u2" = 1) :=
  ⟨⟨by decide, by decide⟩,
   markMessageAsRead_idempotent oneUnreadStore "m" "u2" oneUnreadStoreAfterRead
     [Event.unreadCountUpdated "c" "u2" 0, Event.messageReadUpdated "m" "u2"]
     { messageId := "m", userId := "u2" } (by decide) (by decide)⟩

/-- C3: every stored unread counter in a reachable state is non-negative,
and a serialized sequence of increment/resetToZero operations on one key
starting from no row leaves exactly the number of increments performed
strictly after the last reset (the total number of increments when no
reset occurred). -/
theorem unreadCounter_nonneg_and_serialized :
    (∀ s, Reachable s → ∀ r ∈ s.unreadCounts, 0 ≤ r.unreadCount) ∧
    (∀ (c u : String) (s : Store) (ops : List CounterOp),
      lookupUnreadCount s c u = none →
      CounterOp.resetToZero ∉ ops →
      UnreadCountService.getUnreadCount (applyCounterOps c u s ops) c u
        = (ops.count CounterOp.increment : Int)) ∧
    (∀ (c u : String) (s : Store) (pre suf : List CounterOp),
      CounterOp.resetToZero ∉ suf →
      UnreadCountService.getUnreadCount
          (applyCounterOps c u s (pre ++ CounterOp.resetToZero :: suf)) c u
        = (suf.count CounterOp.increment : Int)) := by
  refine ⟨fun s h => countersNonneg_reachable s h, ?_, ?_⟩
  · intro c u s ops hnone hno
    rw [getUnreadCount_applyCounterOps_no_reset c u ops s hno]
    unfold UnreadCountService.getUnreadCount
    rw [hnone]
    simp
  · intro c u s pre suf h
    exact getUnreadCount_after_reset_segment c u s pre suf h

/-- C3 (witness): concrete instances: a reachable store with a stored
counter, two increments from no row giving 2, and increment, reset,
increment giving 1. -/
theorem unreadCounter_nonneg_and_serialized_witness :
    (Reachable oneUnreadStore ∧ ∀ r ∈ oneUnreadStore.unreadCounts, 0 ≤ r.unreadCount) ∧
    (lookupUnreadCount Store.empty "c" "u" = none ∧
     CounterOp.resetToZero ∉ [CounterOp.increment, CounterOp.increment] ∧
     UnreadCountService.getUnreadCount
       (applyCounterOps "c" "u" Store.empty
         [CounterOp.increment, CounterOp.increment]) "c" "u" = 2) ∧
    (CounterOp.resetToZero ∉ [CounterOp.increment] ∧
     UnreadCountService.getUnreadCount
       (applyCounterOps "c" "u" Store.empty
         ([CounterOp.increment] ++ CounterOp.resetToZero :: [CounterOp.increment]))
       "c" "u" = 1) := by
  refine ⟨⟨⟨_, rfl⟩, ?_⟩, ⟨by decide, by decide, ?_⟩, ⟨by decide, ?_⟩⟩
  · exact unreadCounter_nonneg_and_serialized.1 oneUnreadStore ⟨_, rfl⟩
  · rw [unreadCounter_nonneg_and_serialized.2.1 "c" "u" Store.empty
      [CounterOp.increment, CounterOp.increment] (by decide) (by decide)]
    decide
  · rw [unreadCounter_nonneg_and_serialized.2.2 "c" "u" Store.empty
      [CounterOp.increment] [CounterOp.increment] (by decide)]
    decide

/-- C4 (counterexample): createChat accepts a duplicated participant id
(only ArrayMinSize(1) is validated), and sendMessage then increments the
duplicated participant's counter once per occurrence: u2 ends at 2, not 1. -/
theorem sendMessage_increment_counterexample :
    Reachable dupParticipantStore ∧
    step (runCmds [Cmd.createChat "c" "general" ["u1", "u2", "u2"]])
        (Cmd.sendMessage "m" "c" "u1" "hi") = dupParticipantStore ∧
    ChatService.findOne dupParticipantStore "c"
      = some { id := "c", name := "general", participantIds := ["u1", "u2", "u2"],
               isActive := true } ∧
    UnreadCountService.getUnreadCount
      (runCmds [Cmd.createChat "c" "general" ["u1", "u2", "u2"]]) "c" "u2" = 0 ∧
    UnreadCountService.getUnreadCount dupParticipantStore "c" "u2" = 2 ∧
    (2 : Int) ≠ 1 :=
  ⟨⟨_, rfl⟩, by decide, by decide, by decide, by decide, by decide⟩

/-- C4 (amended): a successful create leaves the sender's counter for the
chat unchanged and increments every other user's counter for the chat once
per occurrence of that user in the chat's participant list (a missing row
starts at 0 and is created holding 1); when the participant list is
duplicate-free this is exactly one increment per non-sender participant. -/
theorem create_increments_per_occurrence (s : Store)
    (chatId senderId content newId : String) (s' : Store) (evs : List Event)
    (m : Message) (c : Chat) (hc : ChatService.findOne s chatId = some c)
    (h : MessageService.create s chatId senderId content newId
          = Except.ok (s', evs, m)) :
    UnreadCountService.getUnreadCount s' chatId senderId
      = UnreadCountService.getUnreadCount s chatId senderId ∧
    (∀ u, u ≠ senderId →
      UnreadCountService.getUnreadCount s' chatId u
        = UnreadCountService.getUnreadCount s chatId u
          + (c.participantIds.count u : Int)) ∧
    (c.participantIds.Nodup → ∀ u ∈ c.participantIds, u ≠ senderId →
      UnreadCountService.getUnreadCount s' chatId u
        = UnreadCountService.getUnreadCount s chatId u + 1) := by
  have base := create_getUnreadCount s chatId senderId content newId s' evs m c hc h
  refine ⟨?_, ?_, ?_⟩
  · rw [base senderId, count_filter_ne_self]
    simp
  · intro u hu
    rw [base u, count_filter_ne_other _ _ _ hu]
  · intro hnd u hmem hu
    rw [base u, count_filter_ne_other _ _ _ hu,
      List.count_eq_one_of_mem hnd hmem]
    simp

/-- C4 (witness): chat c with distinct participants u1, u2, u3; u1 sends a
message; u2's and u3's counters grow by one, u1's is untouched. -/
theorem create_increments_per_occurrence_witness :
    (ChatService.findOne threeUserStore "c"
        = some { id := "c", name := "general", participantIds := ["u1", "u2", "u3"],
                 isActive := true } ∧
     MessageService.create threeUserStore "c" "u1" "hi" "m"
        = Except.ok
            (runCmds [Cmd.createChat "c" "general" ["u1", "u2", "u3"],
                      Cmd.sendMessage "m" "c" "u1" "hi"],
             [Event.messageAdded
                { id := "m", chatId := "c", senderId := "u1", content := "hi",
                  isEdited := false },
              Event.chatMessageNotification "c"
                { id := "m", chatId := "c", senderId := "u1", content := "hi",
                  isEdited := false } "u1",
              Event.messageUpdateForChatList "c"
                { id := "m", chatId := "c", senderId := "u1", content := "hi",
                  isEdited := false } "u1",
              Event.unreadCountUpdated "c" "u2" 1,
              Event.unreadCountUpdated "c" "u3" 1],
             { id := "m", chatId := "c", senderId := "u1", content := "hi",
               isEdited := false })) ∧
    (UnreadCountService.getUnreadCount
        (runCmds [Cmd.createChat "c" "general" ["u1", "u2", "u3"],
                  Cmd.sendMessage "m" "c" "u1" "hi"]) "c" "u1"
      = UnreadCountService.getUnreadCount threeUserStore "c" "u1" ∧
     (∀ u, u ≠ "u1" →
       UnreadCountService.getUnreadCount
          (runCmds [Cmd.createChat "c" "general" ["u1", "u2", "u3"],
                    Cmd.sendMessage "m" "c" "u1" "hi"]) "c" u
         = UnreadCountService.getUnreadCount threeUserStore "c" u
           + ((["u1", "u2", "u3"] : List String).count u : Int)) ∧
     ((["u1", "u2", "u3"] : List String).Nodup →
       ∀ u ∈ (["u1", "u2", "u3"] : List String), u ≠ "u1" →
       UnreadCountService.getUnreadCount
          (runCmds [Cmd.createChat "c" "general" ["u1", "u2", "u3"],
                    Cmd.sendMessage "m" "c" "u1" "hi"]) "c" u
         = UnreadCountService.getUnreadCount threeUserStore "c" u + 1)) :=
  ⟨⟨by decide, by decide⟩,
   create_increments_per_occurrence threeUserStore "c" "u1" "hi" "m"
     (runCmds [Cmd.createChat "c" "general" ["u1", "u2", "u3"],
               Cmd.sendMessage "m" "c" "u1" "hi"])
     [Event.messageAdded
        { id := "m", chatId := "c", senderId := "u1", content := "hi",
          isEdited := false },
      Event.chatMessageNotification "c"
        { id := "m", chatId := "c", senderId := "u1", content := "hi",
          isEdited := false } "u1",
      Event.messageUpdateForChatList "c"
        { id := "m", chatId := "c", senderId := "u1", content := "hi",
          isEdited := false } "u1",
      Event.unreadCountUpdated "c" "u2" 1,
      Event.unreadCountUpdated "c" "u3" 1]
     { id := "m", chatId := "c", senderId := "u1", content := "hi",
       isEdited := false }
     { id := "c", name := "general", participantIds := ["u1", "u2", "u3"],
       isActive := true }
     (by decide) (by decide)⟩

/-- C5 (counterexample): when the second counter save of a sendMessage on a
three-user chat fails, the command errors with Store-Unavailable, yet the
message events were already published and u2's counter was already
incremented — the command does not abort cleanly: earlier side effects remain. -/
theorem create_failure_side_effects_counterexample :
    Reachable threeUserStore ∧
    (MessageService.createF (some 2) threeUserStore "c" "u1" "hi" "m").1
      = Except.error Err.storeUnavailable ∧
    (MessageService.createF (some 2) threeUserStore "c" "u1" "hi" "m").2.2
      = [Event.messageAdded
           { id := "m", chatId := "c", senderId := "u1", content := "hi",
             isEdited := false },
         Event.chatMessageNotification "c"
           { id := "m", chatId := "c", senderId := "u1", content := "hi",
             isEdited := false } "u1",
         Event.messageUpdateForChatList "c"
           { id := "m", chatId := "c", senderId := "u1", content := "hi",
             isEdited := false } "u1",
         Event.unreadCountUpdated "c" "u2" 1] ∧
    (MessageService.createF (some 2) threeUserStore "c" "u1" "hi" "m").2.2 ≠ [] ∧
    UnreadCountService.getUnreadCount
      (MessageService.createF (some 2) threeUserStore "c" "u1" "hi" "m").2.1
      "c" "u2" = 1 ∧
    UnreadCountService.getUnreadCount threeUserStore "c" "u2" = 0 :=
  ⟨⟨_, rfl⟩, by decide, by decide, by decide, by decide, by decide⟩

/-- C5 (amended): only a failure of the initial message save aborts the
command with no side effects (no event published, no counter modified); a
store failure during the per-participant counter loop leaves the already
published events and the earlier increments in place. -/
theorem createF_message_save_failure_no_effects (s : Store)
    (chatId senderId content newId : String) :
    (MessageService.createF (some 0) s chatId senderId content newId).2.1 = s ∧
    (MessageService.createF (some 0) s chatId senderId content newId).2.2 = [] := by
  unfold MessageService.createF
  split
  · exact ⟨rfl, rfl⟩
  · split
    · exact ⟨rfl, rfl⟩
    · simp [saveFails]

/-- C6 (counterexample): the sender u1 of message m successfully marks its
own message as read (markMessageAsRead only checks chat participantship),
so a reachable store holds a ReadReceipt whose userId is the sender. -/
theorem sender_receipt_counterexample :
    Reachable senderReceiptStore ∧
    MessageService.findOne senderReceiptStore "m"
      = some { id := "m", chatId := "c", senderId := "u1", content := "hi",
               isEdited := false } ∧
    { messageId := "m", userId := "u1" : MessageRead } ∈ senderReceiptStore.reads :=
  ⟨⟨_, rfl⟩, by decide, by decide⟩

/-- C6 (amended): in every reachable store at most one ReadReceipt is
stored per (message, user) pair; the other half of the claim — that the
sender never holds a receipt for the own message — is refuted by the
counterexample. -/
theorem receipt_pairs_unique (s : Store) (h : Reachable s) :
    (receiptPairs s).Nodup := by
  obtain ⟨cmds, rfl⟩ := h
  exact receiptPairs_foldl cmds Store.empty List.nodup_nil

/-- C6 (witness): the receipt table of a concrete reachable store has
pairwise distinct (message, user) keys. -/
theorem receipt_pairs_unique_witness :
    Reachable oneUnreadStoreAfterRead ∧
    (receiptPairs oneUnreadStoreAfterRead).Nodup :=
  ⟨⟨_, rfl⟩, receipt_pairs_unique oneUnreadStoreAfterRead ⟨_, rfl⟩⟩

/-- C7: every unreadCountUpdated event published by incrementUnreadCount or
resetUnreadCount carries exactly the counter value persisted by that
operation (never a delta), the last event of any serialized operation
sequence carries the final stored value, and a consumer overwriting its
badge with a received event's value therefore holds the stored value no
matter how many earlier events it missed. -/
theorem unreadCountUpdated_carries_post_value :
    (∀ (s : Store) (c u : String),
      (UnreadCountService.incrementUnreadCount s c u).2.1
        = Event.unreadCountUpdated c u
            (UnreadCountService.getUnreadCount
              (UnreadCountService.incrementUnreadCount s c u).1 c u)) ∧
    (∀ (s : Store) (c u : String),
      (UnreadCountService.resetUnreadCount s c u).2.1
        = Event.unreadCountUpdated c u
            (UnreadCountService.getUnreadCount
              (UnreadCountService.resetUnreadCount s c u).1 c u)) ∧
    (∀ (c u : String) (s : Store) (ops : List CounterOp) (op : CounterOp),
      (counterOpsTrace c u s (ops ++ [op])).2.getLast?
        = some (Event.unreadCountUpdated c u
            (UnreadCountService.getUnreadCount
              (counterOpsTrace c u s (ops ++ [op])).1 c u))) ∧
    (∀ (badge v : Int) (c u : String),
      applyEventToBadge badge (Event.unreadCountUpdated c u v) = v) :=
  ⟨incrementUnreadCount_event_value, resetUnreadCount_event_value,
   trace_getLast_event, fun _ _ _ _ => rfl⟩

/-- C8 (counterexample): both counter operations are unsynchronized
read-then-write; interleaving the two reads of two concurrent increments
on the same key before the two writes loses one update: from a reachable
state with no row the final value is 1 where serialized execution gives 2. -/
theorem counter_lost_update_counterexample :
    Reachable twoUserStore ∧
    UnreadCountService.getUnreadCount twoUserStore "c" "u2" = 0 ∧
    UnreadCountService.getUnreadCount
      (twoIncrementsInterleaved twoUserStore "c" "u2") "c" "u2" = 1 ∧
    UnreadCountService.getUnreadCount
      ((UnreadCountService.incrementUnreadCount
        (UnreadCountService.incrementUnreadCount twoUserStore "c" "u2").1
        "c" "u2").1) "c" "u2" = 2 ∧
    (1 : Int) ≠ 2 :=
  ⟨⟨_, rfl⟩, by decide, by decide, by decide, by decide⟩

/-- C8 (amended): incrementUnreadCount is exactly the composition of its
repository read phase (findOne) and write phase (save of the recomputed
row) — not an atomic store upsert; under serialization two increments add
2, but the read-read-write-write interleaving of two concurrent increments
on one key adds only 1, losing an update. -/
theorem increment_is_read_modify_write :
    (∀ (s : Store) (c u : String),
      UnreadCountService.incrementUnreadCount s c u
        = incrementWrite s c u (incrementRead s c u)) ∧
    (∀ (s : Store) (c u : String),
      UnreadCountService.getUnreadCount
          ((UnreadCountService.incrementUnreadCount
            (UnreadCountService.incrementUnreadCount s c u).1 c u).1) c u
        = UnreadCountService.getUnreadCount s c u + 2) ∧
    (∀ (s : Store) (c u : String),
      UnreadCountService.getUnreadCount (twoIncrementsInterleaved s c u) c u
        = UnreadCountService.getUnreadCount s c u + 1) := by
  refine ⟨fun s c u => rfl, ?_, ?_⟩
  · intro s c u
    rw [getUnreadCount_increment_self, getUnreadCount_increment_self]
    ring
  · intro s c u
    unfold twoIncrementsInterleaved incrementRead incrementWrite
    cases hl : lookupUnreadCount s c u with
    | none =>
      have key := lookup_save_key
        (saveUnreadCount s { chatId := c, userId := u, unreadCount := 1 }) c u
        { chatId := c, userId := u, unreadCount := 1 } rfl rfl
      simp [UnreadCountService.getUnreadCount, hl, key]
    | some r =>
      obtain ⟨h1, h2⟩ := findCounterRow_some_keys hl
      have key := lookup_save_key
        (saveUnreadCount s { r with unreadCount := r.unreadCount + 1 }) c u
        { r with unreadCount := r.unreadCount + 1 } h1 h2
      simp [UnreadCountService.getUnreadCount, hl, key]

/-- C9 (counterexample): the exposed removeParticipant mutation shrinks the
participant list and can empty it: a reachable store holds an active chat
with zero participants. -/
theorem removeParticipant_empties_chat_counterexample :
    Reachable emptiedChatStore ∧
    ChatService.findOne emptiedChatStore "c"
      = some { id := "c", name := "general", participantIds := [],
               isActive := true } ∧
    (∃ c, ChatService.findOne emptiedChatStore "c" = some c ∧
      c.participantIds.length = 0) :=
  ⟨⟨_, rfl⟩, by decide,
   ⟨{ id := "c", name := "general", participantIds := [], isActive := true },
    by decide, by decide⟩⟩

/-- C9 (amended): createChat validation requires at least one participant
and the created chat carries exactly the input list; the add operations
never remove a member; but the exposed removeParticipant mutation replaces
the list by its filtration, so the participant set can shrink and reach
empty. -/
theorem participant_set_mutations :
    (∀ (s : Store) (cid uid : String) (s' : Store) (c' c : Chat),
      ChatService.findOne s cid = some c →
      ChatService.addParticipant s cid uid = Except.ok (s', c') →
      ∀ x ∈ c.participantIds, x ∈ c'.participantIds) ∧
    (∀ (s : Store) (cid : String) (uids : List String) (s' : Store)
        (evs : List Event) (c' c : Chat),
      ChatService.findOne s cid = some c →
      ChatService.addParticipants s cid uids = Except.ok (s', evs, c') →
      ∀ x ∈ c.participantIds, x ∈ c'.participantIds) ∧
    (∀ (s : Store) (cid uid : String) (s' : Store) (c' c : Chat),
      ChatService.findOne s cid = some c →
      ChatService.removeParticipant s cid uid = Except.ok (s', c') →
      c'.participantIds = c.participantIds.filter (fun id => id != uid)) ∧
    (∀ (s : Store) (id name : String) (ps : List String),
      createChatInputValid name ps = false →
      step s (Cmd.createChat id name ps) = s) ∧
    (∀ (name : String) (ps : List String),
      createChatInputValid name ps = true → 1 ≤ ps.length) ∧
    (∀ (s : Store) (id name : String) (ps : List String),
      (ChatService.create s id name ps).2.2.participantIds = ps) :=
  ⟨fun s cid uid s' c' c hc h => addParticipant_mem s cid uid s' c' c hc h,
   fun s cid uids s' evs c' c hc h => addParticipants_mem s cid uids s' evs c' c hc h,
   fun s cid uid s' c' c hc h => removeParticipant_result s cid uid s' c' c hc h,
   fun s id name ps h => step_createChat_invalid s id name ps h,
   fun name ps h => createChatInputValid_length name ps h,
   fun _ _ _ _ => rfl⟩

/-- C9 (witness): on the two-user chat, adding u3 keeps u1 and u2, and
removing u2 leaves exactly the filtered list. -/
theorem participant_set_mutations_witness :
    (ChatService.findOne twoUserStore "c"
        = some { id := "c", name := "general", participantIds := ["u1", "u2"],
                 isActive := true } ∧
     ChatService.addParticipant twoUserStore "c" "u3"
        = Except.ok
            (runCmds [Cmd.createChat "c" "general" ["u1", "u2"],
                      Cmd.addParticipant "c" "u3"],
             { id := "c", name := "general", participantIds := ["u1", "u2", "u3"],
               isActive := true }) ∧
     ChatService.removeParticipant twoUserStore "c" "u2"
        = Except.ok
            (runCmds [Cmd.createChat "c" "general" ["u1", "u2"],
                      Cmd.removeParticipant "c" "u2"],
             { id := "c", name := "general", participantIds := ["u1"],
               isActive := true })) ∧
    (∀ x ∈ (["u1", "u2"] : List String),
      x ∈ ({ id := "c", name := "general", participantIds := ["u1", "u2", "u3"],
             isActive := true : Chat }).participantIds) ∧
    ({ id := "c", name := "general", participantIds := ["u1"],
       isActive := true : Chat }).participantIds
      = (["u1", "u2"] : List String).filter (fun id => id != "u2") :=
  ⟨⟨by decide, by decide, by decide⟩,
   participant_set_mutations.1 twoUserStore "c" "u3"
     (runCmds [Cmd.createChat "c" "general" ["u1", "u2"],
               Cmd.addParticipant "c" "u3"])
     { id := "c", name := "general", participantIds := ["u1", "u2", "u3"],
       isActive := true }
     { id := "c", name := "general", participantIds := ["u1", "u2"],
       isActive := true }
     (by decide) (by decide),
   participant_set_mutations.2.2.1 twoUserStore "c" "u2"
     (runCmds [Cmd.createChat "c" "general" ["u1", "u2"],
               Cmd.removeParticipant "c" "u2"])
     { id := "c", name := "general", participantIds := ["u1"],
       isActive := true }
     { id := "c", name := "general", participantIds := ["u1", "u2"],
       isActive := true }
     (by decide) (by decide)⟩

/-- C10: the chatMessageNotification and messageUpdateForChatList
subscription filters forward a payload to a subscribed user exactly when
the payload's senderId differs from that user; chat membership is not
consulted, so a subscribed non-participant (u9) also passes the filter. -/
theorem notification_filter_sender_only :
    (∀ (p : ChatMessageNotificationPayload) (u : String),
      chatMessageNotificationFilter p u = true ↔ p.senderId ≠ u) ∧
    (∀ (p : MessageUpdateForChatListPayload) (u : String),
      messageUpdateForChatListFilter p u = true ↔ p.senderId ≠ u) ∧
    (chatMessageNotificationFilter
        { chatId := "c",
          message := { id := "m", chatId := "c", senderId := "u1",
                       content := "hi", isEdited := false },
          senderId := "u1" } "u9" = true ∧
     (ChatService.findOne twoUserStore "c").map
        (fun c => c.participantIds.contains "u9") = some false) ∧
    messageUpdateForChatListFilter
      { chatId := "c",
        message := { id := "m", chatId := "c", senderId := "u1",
                     content := "hi", isEdited := false },
        senderId := "u1" } "u9" = true := by
  refine ⟨?_, ?_, ⟨by decide, by decide⟩, by decide⟩
  · intro p u
    simp [chatMessageNotificationFilter]
  · intro p u
    simp [messageUpdateForChatListFilter]

/-- C10 (witness): the filters applied at a concrete payload and user. -/
theorem notification_filter_sender_only_witness :
    chatMessageNotificationFilter
      { chatId := "c",
        message := { id := "m", chatId := "c", senderId := "u1",
                     content := "hi", isEdited := false },
        senderId := "u1" } "u2" = true ∧
    messageUpdateForChatListFilter
      { chatId := "c",
        message := { id := "m", chatId := "c", senderId := "u1",
                     content := "hi", isEdited := false },
        senderId := "u1" } "u1" = false :=
  ⟨(notification_filter_sender_only.1
      { chatId := "c",
        message := { id := "m", chatId := "c", senderId := "u1",
                     content := "hi", isEdited := false },
        senderId := "u1" } "u2").mpr (by decide),
   by
    have := (notification_filter_sender_only.2.1
      { chatId := "c",
        message := { id := "m", chatId := "c", senderId := "u1",
                     content := "hi", isEdited := false },
        senderId := "u1" } "u1")
    revert this
    decide⟩
